import Mathlib

/-!
Verification of the linear-interpolation audio resamplers.

This file is a shallow embedding, in Lean 4, of the audio-resampling code of
the repository:

* `resample22To24` from `src/in-progress/slot-machine-agent/agent.ts`
  (lines 70–89): a fixed-rate 22050 Hz → 24000 Hz linear-interpolation
  resampler over a plain array of integer samples.
* `AudioResampler` from
  `src/not-working/bad-liveavatar-attempt/liveavatar-audio-output.ts`
  (lines 311–347): a configurable-rate linear-interpolation resampler whose
  `push` method takes an audio frame and returns a list of frames, writing
  its results through an `Int16Array`.
* the every-2nd-sample decimation loop of `LiveAvatarForwarder.forwardAudio`
  (`src/unnamed/part_003`, lines 247–264).

JavaScript `number` arithmetic on sample positions and interpolation weights
is modelled by exact rational arithmetic (`ℚ`); sample values are integers
(`ℤ`), as the samples handled by this code come from `Int16Array` data.
`Math.round` is JavaScript's round-half-toward-positive-infinity, i.e.
`⌊x + 1/2⌋`; an `Int16Array` store wraps its value to the signed 16-bit
range, modelled by `toInt16`.
-/

namespace LiveAvatar

/-- JavaScript `Math.round`: rounds to the nearest integer, half-way cases
toward `+∞`, i.e. `Math.round x = ⌊x + 1/2⌋`. -/
def jsRound (q : ℚ) : ℤ := ⌊q + 1 / 2⌋

/-- The conversion applied by a store into a JavaScript `Int16Array`:
wrap to the signed 16-bit range `[-32768, 32767]`. -/
def toInt16 (x : ℤ) : ℤ := (x + 32768) % 65536 - 32768

/-- The common per-output-sample computation of all the resampling loops in
the repository, at fractional source position `t` over the sample list `d`:

```js
const srcIndexFloor = Math.floor(t);
const srcIndexCeil = Math.min(srcIndexFloor + 1, d.length - 1);
const fraction = t - srcIndexFloor;
d[srcIndexFloor] * (1 - fraction) + d[srcIndexCeil] * fraction
```

(`AudioResampler.push` names these `index0`, `index1`, `fraction`.)
Out-of-range reads (never reached: see the index-range theorems) default
to `0`. -/
def interpAt (d : List ℤ) (t : ℚ) : ℚ :=
  let srcIndexFloor : ℤ := ⌊t⌋
  let srcIndexCeil : ℤ := min (srcIndexFloor + 1) ((d.length : ℤ) - 1)
  let fraction : ℚ := t - (srcIndexFloor : ℚ)
  (d.getD srcIndexFloor.toNat 0 : ℚ) * (1 - fraction)
    + (d.getD srcIndexCeil.toNat 0 : ℚ) * fraction

/-- The function `resample22To24` from `slot-machine-agent/agent.ts`:

```js
const inputRate = 22050;
const outputRate = 24000;
const ratio = outputRate / inputRate;
const outputLength = Math.floor(samples.length * ratio);
for (let i = 0; i < outputLength; i++) {
  const srcIndex = i / ratio;
  ... // interpAt samples srcIndex
  resampled.push(Math.round(sample));
}
```

The result is a plain `number[]`; no 16-bit wrapping is applied. -/
def resample22To24 (samples : List ℤ) : List ℤ :=
  let inputRate : ℚ := 22050
  let outputRate : ℚ := 24000
  let ratio : ℚ := outputRate / inputRate
  let outputLength : ℕ := (⌊(samples.length : ℚ) * ratio⌋).toNat
  (List.range outputLength).map fun (i : ℕ) =>
    jsRound (interpAt samples ((i : ℚ) / ratio))

/-- The resampling loop of `AudioResampler.push` (`liveavatar-audio-output.ts`),
parameterised by the `ratio` field (`inputRate / outputRate`):

```js
const outputSampleCount = Math.floor(inputSamples.length / this.ratio);
const outputData = new Int16Array(outputSampleCount);
for (let i = 0; i < outputSampleCount; i++) {
  const inputIndex = i * this.ratio;
  ... // interpAt inputSamples inputIndex
  outputData[i] = Math.round(...);   // Int16Array store: wraps to 16 bits
}
```
-/
def resampleLoop (ratio : ℚ) (inputSamples : List ℤ) : List ℤ :=
  let outputSampleCount : ℕ := (⌊(inputSamples.length : ℚ) / ratio⌋).toNat
  (List.range outputSampleCount).map fun (i : ℕ) =>
    toInt16 (jsRound (interpAt inputSamples ((i : ℚ) * ratio)))

/-- An SDK `AudioFrame` as used by this code: `data` is the `Int16Array`
sample buffer (a list of integers), plus the frame's sample rate, channel
count and samples-per-channel fields. -/
structure AudioFrame where
  data : List ℤ
  sampleRate : ℕ
  channels : ℕ
  samplesPerChannel : ℚ
deriving DecidableEq, Repr

/-- The `AudioResampler` object state: the two constructor rates, the
derived `ratio` field, and the (declared but never used) `buffer` field. -/
structure AudioResampler where
  inputRate : ℕ
  outputRate : ℕ
  ratio : ℚ
  buffer : List ℤ
deriving DecidableEq, Repr

/-- The `AudioResampler` constructor:
`this.ratio = inputRate / outputRate`, `this.buffer = []`. -/
def AudioResampler.create (inputRate outputRate : ℕ) : AudioResampler :=
  { inputRate := inputRate
    outputRate := outputRate
    ratio := (inputRate : ℚ) / (outputRate : ℚ)
    buffer := [] }

/-- The method `AudioResampler.push`, as a function of the object state and the frame,
returning the (unchanged) state together with the returned frame list:

```js
push(frame) {
  if (frame.sampleRate === this.outputRate) return [frame];
  ... // resampleLoop this.ratio frame.data
  return [{ data: outputData, sampleRate: this.outputRate,
            channels: frame.channels,
            samplesPerChannel: outputSampleCount / frame.channels }];
}
```

No statement of the method assigns to a field of `this`, so the state
component of the result is the input state. -/
def AudioResampler.push (r : AudioResampler) (frame : AudioFrame) :
    AudioResampler × List AudioFrame :=
  if frame.sampleRate = r.outputRate then
    (r, [frame])
  else
    let outputData : List ℤ := resampleLoop r.ratio frame.data
    (r, [{ data := outputData
           sampleRate := r.outputRate
           channels := frame.channels
           samplesPerChannel := (outputData.length : ℚ) / (frame.channels : ℚ) }])

/-- The decimation loop of `LiveAvatarForwarder.forwardAudio`
(`src/unnamed/part_003`):

```js
const resampleRatio = 2; // 48000 / 24000
const outputLength = Math.floor(inputData.length / resampleRatio);
const outputData = new Int16Array(outputLength);
for (let i = 0; i < outputLength; i++) {
  outputData[i] = inputData[i * resampleRatio];
}
```
-/
def forwardAudioResample (inputData : List ℤ) : List ℤ :=
  let resampleRatio : ℕ := 2
  let outputLength : ℕ := inputData.length / resampleRatio
  (List.range outputLength).map fun (i : ℕ) =>
    toInt16 (inputData.getD (i * resampleRatio) 0)

/-! ## Basic lemmas about rounding, wrapping and floors -/

theorem jsRound_intCast (z : ℤ) : jsRound (z : ℚ) = z := by
  have h : ⌊(1 / 2 : ℚ)⌋ = 0 := by norm_num [Int.floor_eq_iff]
  unfold jsRound
  rw [Int.floor_int_add, h, add_zero]

theorem jsRound_mono {p q : ℚ} (h : p ≤ q) : jsRound p ≤ jsRound q :=
  Int.floor_mono (by linarith)

theorem le_jsRound {lo : ℤ} {q : ℚ} (h : (lo : ℚ) ≤ q) : lo ≤ jsRound q :=
  Int.le_floor.mpr (by linarith)

theorem jsRound_le {hi : ℤ} {q : ℚ} (h : q ≤ (hi : ℚ)) : jsRound q ≤ hi := by
  have h2 : (q + 1 / 2 : ℚ) < ((hi + 1 : ℤ) : ℚ) := by push_cast; linarith
  exact Int.lt_add_one_iff.mp (Int.floor_lt.mpr h2)

theorem toInt16_eq_self {x : ℤ} (h1 : -32768 ≤ x) (h2 : x ≤ 32767) : toInt16 x = x := by
  unfold toInt16
  rw [Int.emod_eq_of_lt (by omega) (by omega)]
  omega

theorem floor_natCast_mul_div (i a b : ℕ) :
    ⌊(i : ℚ) * ((a : ℚ) / (b : ℚ))⌋ = ((i * a / b : ℕ) : ℤ) := by
  have h : (i : ℚ) * ((a : ℚ) / (b : ℚ)) = ((i * a : ℕ) : ℚ) / ((b : ℕ) : ℚ) := by
    push_cast; ring
  rw [h, Rat.floor_natCast_div_natCast]
  omega

theorem floor_natCast_div_div (n a b : ℕ) :
    ⌊(n : ℚ) / ((a : ℚ) / (b : ℚ))⌋ = ((n * b / a : ℕ) : ℤ) := by
  have h : (n : ℚ) / ((a : ℚ) / (b : ℚ)) = ((n * b : ℕ) : ℚ) / ((a : ℕ) : ℚ) := by
    rw [div_eq_mul_inv, inv_div, ← mul_div_assoc]; push_cast; ring
  rw [h, Rat.floor_natCast_div_natCast]
  omega

theorem natCast_div_ratio_eq_mul (i a b : ℕ) :
    (i : ℚ) / ((a : ℚ) / (b : ℚ)) = (i : ℚ) * ((b : ℚ) / (a : ℚ)) := by
  rw [div_eq_mul_inv, inv_div]

/-! ## Interpolation lemmas -/

theorem fract_nonneg' (t : ℚ) : 0 ≤ t - (⌊t⌋ : ℚ) := by
  have := Int.floor_le t; linarith

theorem fract_lt_one' (t : ℚ) : t - (⌊t⌋ : ℚ) < 1 := by
  have := Int.lt_floor_add_one t; push_cast at this; linarith

/-- The indices read by the interpolation step all lie within
`[0, d.length - 1]` whenever the source position lies in `[0, d.length)`. -/
theorem interp_indices_valid (d : List ℤ) (t : ℚ) (h0 : 0 ≤ t) (h1 : t < d.length) :
    0 ≤ ⌊t⌋ ∧ ⌊t⌋ ≤ (d.length : ℤ) - 1 ∧
      0 ≤ min (⌊t⌋ + 1) ((d.length : ℤ) - 1) ∧
      min (⌊t⌋ + 1) ((d.length : ℤ) - 1) ≤ (d.length : ℤ) - 1 := by
  have hf0 : 0 ≤ ⌊t⌋ := Int.floor_nonneg.mpr h0
  have hfn : ⌊t⌋ < (d.length : ℤ) := Int.floor_lt.mpr (by exact_mod_cast h1)
  omega

theorem floor_toNat_lt (d : List ℤ) (t : ℚ) (h0 : 0 ≤ t) (h1 : t < d.length) :
    (⌊t⌋).toNat < d.length := by
  have hf0 : 0 ≤ ⌊t⌋ := Int.floor_nonneg.mpr h0
  have hfn : ⌊t⌋ < (d.length : ℤ) := Int.floor_lt.mpr (by exact_mod_cast h1)
  omega

theorem ceil_toNat_lt (d : List ℤ) (t : ℚ) (h0 : 0 ≤ t) (h1 : t < d.length) :
    (min (⌊t⌋ + 1) ((d.length : ℤ) - 1)).toNat < d.length := by
  have hf0 : 0 ≤ ⌊t⌋ := Int.floor_nonneg.mpr h0
  have hfn : ⌊t⌋ < (d.length : ℤ) := Int.floor_lt.mpr (by exact_mod_cast h1)
  omega

theorem getD_mem_of_lt (d : List ℤ) (k : ℕ) (h : k < d.length) : d.getD k 0 ∈ d := by
  rw [List.getD_eq_getElem _ _ h]
  exact List.getElem_mem h

/-- At an integer source position the interpolation returns that sample. -/
theorem interpAt_natCast (d : List ℤ) (i : ℕ) :
    interpAt d (i : ℚ) = (d.getD i 0 : ℚ) := by
  simp only [interpAt]
  rw [Int.floor_natCast, Int.toNat_natCast]
  push_cast
  ring

/-- A convex combination of two in-range samples stays within any common
bounds on the samples. -/
theorem interpAt_bounds (d : List ℤ) (lo hi : ℤ) (hb : ∀ x ∈ d, lo ≤ x ∧ x ≤ hi)
    (t : ℚ) (h0 : 0 ≤ t) (h1 : t < d.length) :
    (lo : ℚ) ≤ interpAt d t ∧ interpAt d t ≤ (hi : ℚ) := by
  simp only [interpAt]
  obtain ⟨ha1, ha2⟩ := hb _ (getD_mem_of_lt d _ (floor_toNat_lt d t h0 h1))
  obtain ⟨hb1, hb2⟩ := hb _ (getD_mem_of_lt d _ (ceil_toNat_lt d t h0 h1))
  have ha1' : (lo : ℚ) ≤ (d.getD (⌊t⌋).toNat 0 : ℤ) := by exact_mod_cast ha1
  have ha2' : ((d.getD (⌊t⌋).toNat 0 : ℤ) : ℚ) ≤ (hi : ℚ) := by exact_mod_cast ha2
  have hb1' : (lo : ℚ) ≤ (d.getD (min (⌊t⌋ + 1) ((d.length : ℤ) - 1)).toNat 0 : ℤ) := by
    exact_mod_cast hb1
  have hb2' : ((d.getD (min (⌊t⌋ + 1) ((d.length : ℤ) - 1)).toNat 0 : ℤ) : ℚ) ≤ (hi : ℚ) := by
    exact_mod_cast hb2
  have hfr0 : (0 : ℚ) ≤ t - (⌊t⌋ : ℚ) := fract_nonneg' t
  have hfr1 : t - (⌊t⌋ : ℚ) < 1 := fract_lt_one' t
  constructor
  · nlinarith
  · nlinarith

/-- Monotone samples give a monotone interpolant: for source positions
`0 ≤ s ≤ t < d.length`, the interpolated value at `s` is at most the one
at `t`. -/
theorem interpAt_mono (d : List ℤ)
    (hm : ∀ i j : ℕ, i ≤ j → j < d.length → d.getD i 0 ≤ d.getD j 0)
    (s t : ℚ) (h0 : 0 ≤ s) (hst : s ≤ t) (ht : t < d.length) :
    interpAt d s ≤ interpAt d t := by
  have h0t : 0 ≤ t := le_trans h0 hst
  have key : ∀ p q : ℤ, 0 ≤ p → p ≤ q → q < (d.length : ℤ) →
      d.getD p.toNat 0 ≤ d.getD q.toNat 0 := by
    intro p q hp hpq hq
    exact hm p.toNat q.toNat (by omega) (by omega)
  have hfs0 : 0 ≤ ⌊s⌋ := Int.floor_nonneg.mpr h0
  have hfsft : ⌊s⌋ ≤ ⌊t⌋ := Int.floor_mono hst
  have hftn : ⌊t⌋ < (d.length : ℤ) := Int.floor_lt.mpr (by exact_mod_cast ht)
  have hfsn : ⌊s⌋ < (d.length : ℤ) := lt_of_le_of_lt hfsft hftn
  have hσ0 : (0 : ℚ) ≤ s - (⌊s⌋ : ℚ) := fract_nonneg' s
  have hσ1 : s - (⌊s⌋ : ℚ) < 1 := fract_lt_one' s
  have hτ0 : (0 : ℚ) ≤ t - (⌊t⌋ : ℚ) := fract_nonneg' t
  have hτ1 : t - (⌊t⌋ : ℚ) < 1 := fract_lt_one' t
  rcases eq_or_lt_of_le hfsft with heq | hlt
  · -- same source cell: the difference is (ceil - floor) * (t - s) ≥ 0
    simp only [interpAt]
    rw [← heq]
    have hab : d.getD (⌊s⌋).toNat 0 ≤ d.getD (min (⌊s⌋ + 1) ((d.length : ℤ) - 1)).toNat 0 :=
      key _ _ hfs0 (by omega) (by omega)
    have hab' : ((d.getD (⌊s⌋).toNat 0 : ℤ) : ℚ) ≤
        (d.getD (min (⌊s⌋ + 1) ((d.length : ℤ) - 1)).toNat 0 : ℤ) := by exact_mod_cast hab
    nlinarith
  · -- distinct source cells: climb through the cell boundary
    have hcs_le : min (⌊s⌋ + 1) ((d.length : ℤ) - 1) ≤ ⌊t⌋ := by omega
    have hcs0 : 0 ≤ min (⌊s⌋ + 1) ((d.length : ℤ) - 1) := by omega
    have step1 : interpAt d s ≤ (d.getD (min (⌊s⌋ + 1) ((d.length : ℤ) - 1)).toNat 0 : ℚ) := by
      simp only [interpAt]
      have hab : d.getD (⌊s⌋).toNat 0 ≤ d.getD (min (⌊s⌋ + 1) ((d.length : ℤ) - 1)).toNat 0 :=
        key _ _ hfs0 (by omega) (by omega)
      have hab' : ((d.getD (⌊s⌋).toNat 0 : ℤ) : ℚ) ≤
          (d.getD (min (⌊s⌋ + 1) ((d.length : ℤ) - 1)).toNat 0 : ℤ) := by exact_mod_cast hab
      nlinarith
    have step2 : (d.getD (min (⌊s⌋ + 1) ((d.length : ℤ) - 1)).toNat 0 : ℤ) ≤
        d.getD (⌊t⌋).toNat 0 := key _ _ hcs0 hcs_le hftn
    have step3 : (d.getD (⌊t⌋).toNat 0 : ℚ) ≤ interpAt d t := by
      simp only [interpAt]
      have hab : d.getD (⌊t⌋).toNat 0 ≤ d.getD (min (⌊t⌋ + 1) ((d.length : ℤ) - 1)).toNat 0 :=
        key _ _ (by omega) (by omega) (by omega)
      have hab' : ((d.getD (⌊t⌋).toNat 0 : ℤ) : ℚ) ≤
          (d.getD (min (⌊t⌋ + 1) ((d.length : ℤ) - 1)).toNat 0 : ℤ) := by exact_mod_cast hab
      nlinarith
    have step2' : ((d.getD (min (⌊s⌋ + 1) ((d.length : ℤ) - 1)).toNat 0 : ℤ) : ℚ) ≤
        (d.getD (⌊t⌋).toNat 0 : ℤ) := by exact_mod_cast step2
    calc interpAt d s ≤ _ := step1
      _ ≤ ((d.getD (⌊t⌋).toNat 0 : ℤ) : ℚ) := step2'
      _ ≤ interpAt d t := step3

/-- Output indices below `n * o / p` map to source positions below `n`
(`o` = output rate, `p` = input rate). -/
theorem interp_pos_lt (i n o p : ℕ) (ho : 0 < o) (hp : 0 < p)
    (h : i < n * o / p) : (i : ℚ) * ((p : ℚ) / (o : ℚ)) < (n : ℚ) := by
  have h2 : (i + 1) * p ≤ n * o := (Nat.le_div_iff_mul_le hp).mp h
  have h3 : i * p < n * o := by nlinarith
  have ho' : (0 : ℚ) < (o : ℚ) := by exact_mod_cast ho
  rw [← mul_div_assoc, div_lt_iff₀ ho']
  exact_mod_cast h3

/-! ## Length and per-index access of the resampling loops -/

theorem resample22To24_length (samples : List ℤ) :
    (resample22To24 samples).length = samples.length * 24000 / 22050 := by
  have h := floor_natCast_mul_div samples.length 24000 22050
  simp only [resample22To24, List.length_map, List.length_range]
  rw [show ((24000 : ℚ) / 22050) = (((24000 : ℕ) : ℚ) / ((22050 : ℕ) : ℚ)) by norm_num] at *
  rw [h, Int.toNat_natCast]

theorem resample22To24_getD (samples : List ℤ) (i : ℕ)
    (h : i < samples.length * 24000 / 22050) :
    (resample22To24 samples).getD i 0 =
      jsRound (interpAt samples ((i : ℚ) / ((24000 : ℚ) / 22050))) := by
  have hlen : i < (resample22To24 samples).length := by
    rw [resample22To24_length]; exact h
  rw [List.getD_eq_getElem _ _ hlen]
  simp only [resample22To24, List.getElem_map, List.getElem_range]

theorem resampleLoop_length (ratio : ℚ) (samples : List ℤ) :
    (resampleLoop ratio samples).length = (⌊(samples.length : ℚ) / ratio⌋).toNat := by
  simp only [resampleLoop, List.length_map, List.length_range]

theorem resampleLoop_rates_length (a b : ℕ) (samples : List ℤ) :
    (resampleLoop ((a : ℚ) / (b : ℚ)) samples).length = samples.length * b / a := by
  rw [resampleLoop_length, floor_natCast_div_div, Int.toNat_natCast]

theorem resampleLoop_getD (a b : ℕ) (samples : List ℤ) (i : ℕ)
    (h : i < samples.length * b / a) :
    (resampleLoop ((a : ℚ) / (b : ℚ)) samples).getD i 0 =
      toInt16 (jsRound (interpAt samples ((i : ℚ) * ((a : ℚ) / (b : ℚ))))) := by
  have hlen : i < (resampleLoop ((a : ℚ) / (b : ℚ)) samples).length := by
    rw [resampleLoop_rates_length]; exact h
  rw [List.getD_eq_getElem _ _ hlen]
  simp only [resampleLoop, List.getElem_map, List.getElem_range]

theorem forwardAudioResample_length (inputData : List ℤ) :
    (forwardAudioResample inputData).length = inputData.length / 2 := by
  simp only [forwardAudioResample, List.length_map, List.length_range]

theorem forwardAudioResample_getD (inputData : List ℤ) (i : ℕ)
    (h : i < inputData.length / 2) :
    (forwardAudioResample inputData).getD i 0 = toInt16 (inputData.getD (i * 2) 0) := by
  have hlen : i < (forwardAudioResample inputData).length := by
    rw [forwardAudioResample_length]; exact h
  rw [List.getD_eq_getElem _ _ hlen]
  simp only [forwardAudioResample, List.getElem_map, List.getElem_range]

/-! ## Composite access lemmas -/

/-- The ratio of the 22.05 kHz → 24 kHz resampler as a quotient of casts. -/
theorem ratio22_cast : ((24000 : ℚ) / 22050) = (((24000 : ℕ) : ℚ) / ((22050 : ℕ) : ℚ)) := by
  norm_num

/-- Source positions of `resample22To24` are below the input length. -/
theorem pos22_lt (samples : List ℤ) (i : ℕ) (h : i < samples.length * 24000 / 22050) :
    (i : ℚ) / ((24000 : ℚ) / 22050) < (samples.length : ℚ) := by
  rw [ratio22_cast, natCast_div_ratio_eq_mul]
  exact interp_pos_lt i samples.length 24000 22050 (by norm_num) (by norm_num) h

theorem pos22_nonneg (i : ℕ) : (0 : ℚ) ≤ (i : ℚ) / ((24000 : ℚ) / 22050) := by positivity

/-- When the samples fit in the signed 16-bit range, the `Int16Array` store
in the `AudioResampler` loop does not wrap, and each output sample is the
rounded interpolation value. -/
theorem resampleLoop_getD_int16 (a b : ℕ) (samples : List ℤ) (ha : 0 < a) (hb : 0 < b)
    (hrange : ∀ x ∈ samples, -32768 ≤ x ∧ x ≤ 32767) (i : ℕ)
    (h : i < samples.length * b / a) :
    (resampleLoop ((a : ℚ) / (b : ℚ)) samples).getD i 0 =
      jsRound (interpAt samples ((i : ℚ) * ((a : ℚ) / (b : ℚ)))) := by
  rw [resampleLoop_getD a b samples i h]
  have hpos0 : (0 : ℚ) ≤ (i : ℚ) * ((a : ℚ) / (b : ℚ)) := by positivity
  have hposlt : (i : ℚ) * ((a : ℚ) / (b : ℚ)) < (samples.length : ℚ) :=
    interp_pos_lt i samples.length b a hb ha h
  obtain ⟨hl, hr⟩ := interpAt_bounds samples (-32768) 32767 hrange _ hpos0 hposlt
  exact toInt16_eq_self (le_jsRound hl) (jsRound_le hr)

/-! ## Concrete evaluation support -/

/-- Unfold one interpolation-plus-round step once the floor of the source
position is known; the result is a single explicit floor expression that
`norm_num` can evaluate. -/
theorem jsRound_interpAt_eval (d : List ℤ) (t : ℚ) (f c : ℕ) (hf : ⌊t⌋ = (f : ℤ))
    (hc : (min ((f : ℤ) + 1) ((d.length : ℤ) - 1)).toNat = c) :
    jsRound (interpAt d t) =
      ⌊(d.getD f 0 : ℚ) * (1 - (t - (f : ℚ))) + (d.getD c 0 : ℚ) * (t - (f : ℚ)) + 1 / 2⌋ := by
  simp only [interpAt, jsRound, hf, hc, Int.toNat_natCast]
  congr 1

/-- The concrete case of the spec, evaluated exactly:
`[0, 100, 200, 300]` resampled from 22050 Hz to 24000 Hz is
`[0, 92, 184, 276]` (source positions `0, 0.91875, 1.8375, 2.75625`). -/
theorem resample22To24_concrete :
    resample22To24 [0, 100, 200, 300] = [0, 92, 184, 276] := by
  have hlen : (resample22To24 [0, 100, 200, 300]).length = 4 := by
    rw [resample22To24_length]; rfl
  apply List.ext_getElem (by rw [hlen]; rfl)
  intro i hi hi'
  have hi4 : i < 4 := by rw [hlen] at hi; exact hi
  have hnat : i < ([0, 100, 200, 300] : List ℤ).length * 24000 / 22050 := by
    simpa using hi4
  rw [← List.getD_eq_getElem _ 0 hi, resample22To24_getD _ i hnat]
  have g0 : ([0, 100, 200, 300] : List ℤ).getD 0 0 = 0 := rfl
  have g1 : ([0, 100, 200, 300] : List ℤ).getD 1 0 = 100 := rfl
  have g2 : ([0, 100, 200, 300] : List ℤ).getD 2 0 = 200 := rfl
  have g3 : ([0, 100, 200, 300] : List ℤ).getD 3 0 = 300 := rfl
  interval_cases i
  · rw [jsRound_interpAt_eval _ _ 0 1 (by norm_num [Int.floor_eq_iff]) (by decide), g0, g1]
    norm_num [Int.floor_eq_iff]
  · rw [jsRound_interpAt_eval _ _ 0 1 (by norm_num [Int.floor_eq_iff]) (by decide), g0, g1]
    norm_num [Int.floor_eq_iff]
  · rw [jsRound_interpAt_eval _ _ 1 2 (by norm_num [Int.floor_eq_iff]) (by decide), g1, g2]
    norm_num [Int.floor_eq_iff]
  · rw [jsRound_interpAt_eval _ _ 2 3 (by norm_num [Int.floor_eq_iff]) (by decide), g2, g3]
    norm_num [Int.floor_eq_iff]

/-- The `AudioResampler` loop at ratio 1 is the identity on int16-range data
(the `Math.round` of an integer is itself and the `Int16Array` store does not
wrap). -/
theorem resampleLoop_ratio_one (rate : ℕ) (hr : 0 < rate) (d : List ℤ)
    (hrange : ∀ x ∈ d, -32768 ≤ x ∧ x ≤ 32767) :
    resampleLoop ((rate : ℚ) / (rate : ℚ)) d = d := by
  have hlen : (resampleLoop ((rate : ℚ) / (rate : ℚ)) d).length = d.length := by
    rw [resampleLoop_rates_length, Nat.mul_div_cancel _ hr]
  apply List.ext_getElem hlen
  intro i hi hi'
  rw [← List.getD_eq_getElem _ 0 hi, ← List.getD_eq_getElem _ 0 hi']
  have hbound : i < d.length * rate / rate := by rw [Nat.mul_div_cancel _ hr]; exact hi'
  rw [resampleLoop_getD_int16 rate rate d hr hr hrange i hbound]
  have hone : ((rate : ℚ) / (rate : ℚ)) = 1 := div_self (by exact_mod_cast hr.ne')
  rw [hone, mul_one, interpAt_natCast d i, jsRound_intCast]

/-- The `AudioResampler` loop at rates 48000 → 24000 coincides with the
every-2nd-sample decimation of `forwardAudio`: the ratio is exactly 2, every
interpolation fraction is 0, and both sides wrap through the same
`Int16Array` store. -/
theorem resampleLoop_two_eq_forward (d : List ℤ) :
    resampleLoop ((48000 : ℚ) / (24000 : ℚ)) d = forwardAudioResample d := by
  rw [show ((48000 : ℚ) / (24000 : ℚ)) = (((48000 : ℕ) : ℚ) / ((24000 : ℕ) : ℚ)) by norm_num]
  have hlen : (resampleLoop (((48000 : ℕ) : ℚ) / ((24000 : ℕ) : ℚ)) d).length
      = (forwardAudioResample d).length := by
    rw [resampleLoop_rates_length, forwardAudioResample_length]
    omega
  apply List.ext_getElem hlen
  intro i hi hi'
  rw [← List.getD_eq_getElem _ 0 hi, ← List.getD_eq_getElem _ 0 hi']
  have hi2 : i < d.length / 2 := by rw [forwardAudioResample_length] at hi'; exact hi'
  have hibound : i < d.length * 24000 / 48000 := by omega
  rw [resampleLoop_getD 48000 24000 d i hibound, forwardAudioResample_getD d i hi2]
  congr 1
  have h2 : (((48000 : ℕ) : ℚ) / ((24000 : ℕ) : ℚ)) = 2 := by norm_num
  have hcast : (i : ℚ) * 2 = ((2 * i : ℕ) : ℚ) := by push_cast; ring
  rw [h2, hcast, interpAt_natCast d (2 * i), jsRound_intCast, Nat.mul_comm]

/-! ## The claims -/

/-- C2: for every input sequence (including `[]`) and all positive integer
rates, the resampling loop's output length is exactly
`floor(input_length * output_rate / input_rate)`; likewise for the fixed-rate
`resample22To24`; and a zero-length input yields a zero-length output. -/
theorem claim_C2 (samples : List ℤ) (inputRate outputRate : ℕ)
    (h1 : 0 < inputRate) (h2 : 0 < outputRate) :
    (resampleLoop ((inputRate : ℚ) / (outputRate : ℚ)) samples).length
        = samples.length * outputRate / inputRate
      ∧ (resample22To24 samples).length = samples.length * 24000 / 22050
      ∧ resampleLoop ((inputRate : ℚ) / (outputRate : ℚ)) [] = []
      ∧ resample22To24 [] = [] := by
  refine ⟨resampleLoop_rates_length _ _ _, resample22To24_length _, ?_, ?_⟩
  · have h := resampleLoop_rates_length inputRate outputRate []
    simp only [List.length_nil, Nat.zero_mul, Nat.zero_div] at h
    exact List.length_eq_zero.mp h
  · have h := resample22To24_length []
    simp only [List.length_nil, Nat.zero_mul, Nat.zero_div] at h
    exact List.length_eq_zero.mp h

theorem claim_C2_witness :
    (0 < 22050 ∧ 0 < 24000)
      ∧ ((resampleLoop ((22050 : ℚ) / (24000 : ℚ)) [1, 2, 3]).length
          = ([1, 2, 3] : List ℤ).length * 24000 / 22050
        ∧ (resample22To24 [1, 2, 3]).length = ([1, 2, 3] : List ℤ).length * 24000 / 22050
        ∧ resampleLoop ((22050 : ℚ) / (24000 : ℚ)) [] = []
        ∧ resample22To24 [] = []) :=
  ⟨⟨by decide, by decide⟩, claim_C2 [1, 2, 3] 22050 24000 (by decide) (by decide)⟩

/-- C3 (counterexample): the concrete case `[0, 100, 200, 300]` at
22050 → 24000 does produce 4 samples starting at 0, but the last output
sample is 276, which is not approximately 300 under any rounding tolerance
(it is 24 away). -/
theorem claim_C3_counterexample :
    (resample22To24 [0, 100, 200, 300]).length = 4
      ∧ (resample22To24 [0, 100, 200, 300]).getD 0 0 = 0
      ∧ (resample22To24 [0, 100, 200, 300]).getD 3 0 = 276
      ∧ 1 < |(resample22To24 [0, 100, 200, 300]).getD 3 0 - 300| := by
  have h := resample22To24_concrete
  refine ⟨?_, ?_, ?_, ?_⟩ <;> rw [h] <;> decide

/-- C3 (amended): resampling `[0, 100, 200, 300]` from 22050 Hz to 24000 Hz
yields `[0, 92, 184, 276]`: length `floor(4 * 24000/22050) = 4`, first sample
`0`, last sample `276` (the rounded interpolation value 275.625 at source
position 2.75625 — the output never reaches the last input sample). -/
theorem claim_C3 :
    resample22To24 [0, 100, 200, 300] = [0, 92, 184, 276]
      ∧ (resample22To24 [0, 100, 200, 300]).length = 4
      ∧ (resample22To24 [0, 100, 200, 300]).getD 0 0 = 0
      ∧ (resample22To24 [0, 100, 200, 300]).getD 3 0 = 276 := by
  have h := resample22To24_concrete
  exact ⟨h, by rw [h]; rfl, by rw [h]; rfl, by rw [h]; rfl⟩

/-- C7: `push` is stateless: it returns the resampler state unchanged, a
second call behaves exactly as a call on the original state, and equal
argument frames give equal results. -/
theorem claim_C7 (r : AudioResampler) (frame frame2 : AudioFrame) :
    (r.push frame).1 = r
      ∧ ((r.push frame).1).push frame2 = r.push frame2
      ∧ (frame = frame2 → r.push frame = r.push frame2) := by
  have h : (r.push frame).1 = r := by
    unfold AudioResampler.push
    split <;> rfl
  exact ⟨h, by rw [h], fun he => by rw [he]⟩

theorem claim_C7_witness :
    ((AudioResampler.create 22050 24000).push ⟨[1, 2], 22050, 1, 2⟩).1
        = AudioResampler.create 22050 24000
      ∧ (((AudioResampler.create 22050 24000).push ⟨[1, 2], 22050, 1, 2⟩).1).push
            ⟨[1, 2], 22050, 1, 2⟩
        = (AudioResampler.create 22050 24000).push ⟨[1, 2], 22050, 1, 2⟩
      ∧ (AudioResampler.create 22050 24000).push ⟨[1, 2], 22050, 1, 2⟩
        = (AudioResampler.create 22050 24000).push ⟨[1, 2], 22050, 1, 2⟩ :=
  ⟨(claim_C7 (AudioResampler.create 22050 24000) ⟨[1, 2], 22050, 1, 2⟩
      ⟨[1, 2], 22050, 1, 2⟩).1,
   (claim_C7 (AudioResampler.create 22050 24000) ⟨[1, 2], 22050, 1, 2⟩
      ⟨[1, 2], 22050, 1, 2⟩).2.1,
   (claim_C7 (AudioResampler.create 22050 24000) ⟨[1, 2], 22050, 1, 2⟩
      ⟨[1, 2], 22050, 1, 2⟩).2.2 rfl⟩

/-- C9: `push` branches on the frame's own `sampleRate` field: a frame whose
`sampleRate` equals the configured output rate is returned unchanged
(whatever the configured input rate), and any other frame is resampled with
the constructor ratio, regardless of its actual `sampleRate`. -/
theorem claim_C9 (r : AudioResampler) (frame : AudioFrame) :
    (frame.sampleRate = r.outputRate → r.push frame = (r, [frame]))
      ∧ (frame.sampleRate ≠ r.outputRate →
          (r.push frame).2.map AudioFrame.data = [resampleLoop r.ratio frame.data]) := by
  constructor
  · intro h
    unfold AudioResampler.push
    rw [if_pos h]
  · intro h
    unfold AudioResampler.push
    rw [if_neg h]
    rfl

theorem claim_C9_witness :
    (AudioResampler.create 22050 24000).push ⟨[1, 2], 24000, 1, 2⟩
        = (AudioResampler.create 22050 24000, [⟨[1, 2], 24000, 1, 2⟩])
      ∧ ((AudioResampler.create 22050 24000).push ⟨[1, 2], 48000, 1, 2⟩).2.map
            AudioFrame.data
        = [resampleLoop (AudioResampler.create 22050 24000).ratio [1, 2]] :=
  ⟨(claim_C9 (AudioResampler.create 22050 24000) ⟨[1, 2], 24000, 1, 2⟩).1 rfl,
   (claim_C9 (AudioResampler.create 22050 24000) ⟨[1, 2], 48000, 1, 2⟩).2 (by decide)⟩

/-- C1: each output sample at index `i` is the rounded linear interpolation
of the input at source position `i / ratio`, `ratio = output_rate/input_rate`
(`interpAt` is the claimed formula: `f = ⌊position⌋`,
`c = min (f+1) (length-1)`, `frac = position - f`,
`input[f]*(1-frac) + input[c]*frac`). First conjunct: `resample22To24` with
its fixed rates. Second: the `AudioResampler` loop with arbitrary positive
constructor rates, on int16-range data (the data of an `Int16Array` frame),
where the store back into an `Int16Array` does not wrap. -/
theorem claim_C1 (samples : List ℤ) (i : ℕ) (inputRate outputRate : ℕ)
    (h22 : i < samples.length * 24000 / 22050)
    (ha : 0 < inputRate) (hb : 0 < outputRate)
    (hrange : ∀ x ∈ samples, -32768 ≤ x ∧ x ≤ 32767)
    (hio : i < samples.length * outputRate / inputRate) :
    (resample22To24 samples).getD i 0
        = jsRound (interpAt samples ((i : ℚ) / ((24000 : ℚ) / 22050)))
      ∧ (resampleLoop ((inputRate : ℚ) / (outputRate : ℚ)) samples).getD i 0
        = jsRound (interpAt samples ((i : ℚ) / ((outputRate : ℚ) / (inputRate : ℚ)))) := by
  constructor
  · exact resample22To24_getD samples i h22
  · rw [resampleLoop_getD_int16 inputRate outputRate samples ha hb hrange i hio,
      natCast_div_ratio_eq_mul]

theorem claim_C1_witness :
    ((1 < ([0, 100, 200, 300] : List ℤ).length * 24000 / 22050)
      ∧ 0 < 22050 ∧ 0 < 24000
      ∧ (∀ x ∈ ([0, 100, 200, 300] : List ℤ), -32768 ≤ x ∧ x ≤ 32767)
      ∧ 1 < ([0, 100, 200, 300] : List ℤ).length * 24000 / 22050)
    ∧ ((resample22To24 [0, 100, 200, 300]).getD 1 0
        = jsRound (interpAt [0, 100, 200, 300] ((1 : ℕ) / ((24000 : ℚ) / 22050)))
      ∧ (resampleLoop ((22050 : ℚ) / (24000 : ℚ)) [0, 100, 200, 300]).getD 1 0
        = jsRound (interpAt [0, 100, 200, 300] ((1 : ℕ) / ((24000 : ℚ) / (22050 : ℚ))))) :=
  ⟨⟨by decide, by decide, by decide, by decide, by decide⟩,
   claim_C1 [0, 100, 200, 300] 1 22050 24000 (by decide) (by decide) (by decide)
     (by decide) (by decide)⟩

/-- C4: for a non-empty input, every source index the resamplers read lies
in `[0, input_length - 1]`: both the floor index and the (clamped) ceiling
index, for `resample22To24` and for the `AudioResampler` loop with positive
constructor rates. -/
theorem claim_C4 (samples : List ℤ) (i : ℕ) (inputRate outputRate : ℕ)
    (hne : samples ≠ [])
    (h22 : i < (resample22To24 samples).length)
    (ha : 0 < inputRate) (hb : 0 < outputRate)
    (hio : i < (resampleLoop ((inputRate : ℚ) / (outputRate : ℚ)) samples).length) :
    (0 ≤ ⌊(i : ℚ) / ((24000 : ℚ) / 22050)⌋
      ∧ ⌊(i : ℚ) / ((24000 : ℚ) / 22050)⌋ ≤ (samples.length : ℤ) - 1
      ∧ 0 ≤ min (⌊(i : ℚ) / ((24000 : ℚ) / 22050)⌋ + 1) ((samples.length : ℤ) - 1)
      ∧ min (⌊(i : ℚ) / ((24000 : ℚ) / 22050)⌋ + 1) ((samples.length : ℤ) - 1)
          ≤ (samples.length : ℤ) - 1)
    ∧ (0 ≤ ⌊(i : ℚ) * ((inputRate : ℚ) / (outputRate : ℚ))⌋
      ∧ ⌊(i : ℚ) * ((inputRate : ℚ) / (outputRate : ℚ))⌋ ≤ (samples.length : ℤ) - 1
      ∧ 0 ≤ min (⌊(i : ℚ) * ((inputRate : ℚ) / (outputRate : ℚ))⌋ + 1)
            ((samples.length : ℤ) - 1)
      ∧ min (⌊(i : ℚ) * ((inputRate : ℚ) / (outputRate : ℚ))⌋ + 1)
            ((samples.length : ℤ) - 1)
          ≤ (samples.length : ℤ) - 1) := by
  rw [resample22To24_length] at h22
  rw [resampleLoop_rates_length] at hio
  exact ⟨interp_indices_valid samples _ (pos22_nonneg i) (pos22_lt samples i h22),
    interp_indices_valid samples _ (by positivity)
      (interp_pos_lt i samples.length outputRate inputRate hb ha hio)⟩

theorem claim_C4_witness :
    (([5, 6] : List ℤ) ≠ [] ∧ 0 < (resample22To24 [5, 6]).length
      ∧ 0 < 22050 ∧ 0 < 24000
      ∧ 0 < (resampleLoop ((22050 : ℚ) / (24000 : ℚ)) [5, 6]).length)
    ∧ ((0 ≤ ⌊(0 : ℕ) / ((24000 : ℚ) / 22050)⌋
      ∧ ⌊(0 : ℕ) / ((24000 : ℚ) / 22050)⌋ ≤ (([5, 6] : List ℤ).length : ℤ) - 1
      ∧ 0 ≤ min (⌊(0 : ℕ) / ((24000 : ℚ) / 22050)⌋ + 1) ((([5, 6] : List ℤ).length : ℤ) - 1)
      ∧ min (⌊(0 : ℕ) / ((24000 : ℚ) / 22050)⌋ + 1) ((([5, 6] : List ℤ).length : ℤ) - 1)
          ≤ (([5, 6] : List ℤ).length : ℤ) - 1)
    ∧ (0 ≤ ⌊(0 : ℕ) * ((22050 : ℚ) / (24000 : ℚ))⌋
      ∧ ⌊(0 : ℕ) * ((22050 : ℚ) / (24000 : ℚ))⌋ ≤ (([5, 6] : List ℤ).length : ℤ) - 1
      ∧ 0 ≤ min (⌊(0 : ℕ) * ((22050 : ℚ) / (24000 : ℚ))⌋ + 1)
            ((([5, 6] : List ℤ).length : ℤ) - 1)
      ∧ min (⌊(0 : ℕ) * ((22050 : ℚ) / (24000 : ℚ))⌋ + 1)
            ((([5, 6] : List ℤ).length : ℤ) - 1)
          ≤ (([5, 6] : List ℤ).length : ℤ) - 1)) := by
  have hlen1 : 0 < (resample22To24 ([5, 6] : List ℤ)).length := by
    rw [resample22To24_length]; decide
  have hlen2 : 0 < (resampleLoop ((22050 : ℚ) / (24000 : ℚ)) ([5, 6] : List ℤ)).length := by
    rw [show ((22050 : ℚ) / (24000 : ℚ)) = (((22050 : ℕ) : ℚ) / ((24000 : ℕ) : ℚ)) by norm_num,
      resampleLoop_rates_length]
    decide
  exact ⟨⟨by decide, hlen1, by decide, by decide, hlen2⟩,
    claim_C4 [5, 6] 0 22050 24000 (by decide) hlen1 (by decide) (by decide) hlen2⟩

/-- C5: with equal constructor rates (ratio 1) `push` returns the input
samples unchanged, in both branches: the no-op branch returns the frame
itself, and the loop branch reproduces every sample (`Math.round` of an
integer is itself, and int16-range data does not wrap in the store). -/
theorem claim_C5 (rate : ℕ) (frame : AudioFrame) (hr : 0 < rate)
    (hrange : ∀ x ∈ frame.data, -32768 ≤ x ∧ x ≤ 32767) :
    ((AudioResampler.create rate rate).push frame).2.map AudioFrame.data = [frame.data] := by
  unfold AudioResampler.push
  split
  · rfl
  · simp only [List.map_cons, List.map_nil]
    have hratio : (AudioResampler.create rate rate).ratio = ((rate : ℚ) / (rate : ℚ)) := rfl
    show [resampleLoop (AudioResampler.create rate rate).ratio frame.data] = [frame.data]
    rw [hratio, resampleLoop_ratio_one rate hr frame.data hrange]

theorem claim_C5_witness :
    (0 < 24000 ∧ (∀ x ∈ ([1, 2, 3] : List ℤ), -32768 ≤ x ∧ x ≤ 32767))
    ∧ ((AudioResampler.create 24000 24000).push ⟨[1, 2, 3], 48000, 1, 3⟩).2.map
        AudioFrame.data = [([1, 2, 3] : List ℤ)] :=
  ⟨⟨by decide, by decide⟩,
   claim_C5 24000 ⟨[1, 2, 3], 48000, 1, 3⟩ (by decide) (by decide)⟩

/-- C6: a strictly increasing input yields a non-decreasing output from
`resample22To24`. -/
theorem claim_C6 (samples : List ℤ) (hmono : samples.Pairwise (· < ·))
    (i j : ℕ) (hij : i ≤ j) (hj : j < samples.length * 24000 / 22050) :
    (resample22To24 samples).getD i 0 ≤ (resample22To24 samples).getD j 0 := by
  have hi : i < samples.length * 24000 / 22050 := Nat.lt_of_le_of_lt hij hj
  rw [resample22To24_getD samples i hi, resample22To24_getD samples j hj]
  have hm : ∀ a b : ℕ, a ≤ b → b < samples.length →
      samples.getD a 0 ≤ samples.getD b 0 := by
    intro a b hab hb
    rcases Nat.eq_or_lt_of_le hab with rfl | hlt
    · exact le_refl _
    · have hlt' := (List.pairwise_iff_getElem.mp hmono) a b (lt_trans hlt hb) hb hlt
      rw [List.getD_eq_getElem _ _ (lt_trans hlt hb), List.getD_eq_getElem _ _ hb]
      exact le_of_lt hlt'
  apply jsRound_mono
  apply interpAt_mono samples hm _ _ (pos22_nonneg i) ?_ (pos22_lt samples j hj)
  have hij' : (i : ℚ) ≤ (j : ℚ) := by exact_mod_cast hij
  have hr : (0 : ℚ) < (24000 : ℚ) / 22050 := by norm_num
  exact (div_le_div_iff_of_pos_right hr).mpr hij'

theorem claim_C6_witness :
    (([0, 100, 200, 300] : List ℤ).Pairwise (· < ·)
      ∧ 0 ≤ 3 ∧ 3 < ([0, 100, 200, 300] : List ℤ).length * 24000 / 22050)
    ∧ (resample22To24 [0, 100, 200, 300]).getD 0 0
        ≤ (resample22To24 [0, 100, 200, 300]).getD 3 0 :=
  ⟨⟨by decide, by decide, by decide⟩,
   claim_C6 [0, 100, 200, 300] (by decide) 0 3 (by decide) (by decide)⟩

/-- C8: the every-2nd-sample decimation of `forwardAudio` produces exactly
the sample sequence of the linear-interpolation `AudioResampler` configured
at 48000 → 24000: at ratio exactly 2 every interpolation fraction is 0. -/
theorem claim_C8 (frame : AudioFrame) (h : frame.sampleRate ≠ 24000) :
    forwardAudioResample frame.data
        = resampleLoop ((48000 : ℚ) / (24000 : ℚ)) frame.data
      ∧ ((AudioResampler.create 48000 24000).push frame).2.map AudioFrame.data
        = [forwardAudioResample frame.data] := by
  refine ⟨(resampleLoop_two_eq_forward frame.data).symm, ?_⟩
  unfold AudioResampler.push
  rw [if_neg (show ¬(frame.sampleRate = (AudioResampler.create 48000 24000).outputRate)
    from h)]
  simp only [List.map_cons, List.map_nil]
  show [resampleLoop (AudioResampler.create 48000 24000).ratio frame.data]
      = [forwardAudioResample frame.data]
  have hratio : (AudioResampler.create 48000 24000).ratio = ((48000 : ℚ) / (24000 : ℚ)) := by
    norm_num [AudioResampler.create]
  rw [hratio, resampleLoop_two_eq_forward]

theorem claim_C8_witness :
    ((⟨[1, 2, 3, 4], 48000, 1, 4⟩ : AudioFrame).sampleRate ≠ 24000)
    ∧ (forwardAudioResample [1, 2, 3, 4]
        = resampleLoop ((48000 : ℚ) / (24000 : ℚ)) [1, 2, 3, 4]
      ∧ ((AudioResampler.create 48000 24000).push ⟨[1, 2, 3, 4], 48000, 1, 4⟩).2.map
          AudioFrame.data
        = [forwardAudioResample [1, 2, 3, 4]]) :=
  ⟨by decide, claim_C8 ⟨[1, 2, 3, 4], 48000, 1, 4⟩ (by decide)⟩

/-- C10: every output sample of `resample22To24` lies within any common
bounds of the input samples (in particular between their minimum and
maximum), and int16-range inputs give int16-range outputs, so storing the
result into an `Int16Array` never overflows. -/
theorem claim_C10 (samples : List ℤ) (lo hi : ℤ)
    (hb : ∀ x ∈ samples, lo ≤ x ∧ x ≤ hi)
    (hrange : ∀ x ∈ samples, -32768 ≤ x ∧ x ≤ 32767) :
    (∀ y ∈ resample22To24 samples, lo ≤ y ∧ y ≤ hi)
      ∧ ∀ y ∈ resample22To24 samples, -32768 ≤ y ∧ y ≤ 32767 := by
  have main : ∀ (lo hi : ℤ), (∀ x ∈ samples, lo ≤ x ∧ x ≤ hi) →
      ∀ y ∈ resample22To24 samples, lo ≤ y ∧ y ≤ hi := by
    intro lo hi hb y hy
    obtain ⟨k, hklen, hk⟩ := List.getElem_of_mem hy
    rw [← List.getD_eq_getElem _ 0 hklen] at hk
    have hnat : k < samples.length * 24000 / 22050 := by
      rwa [resample22To24_length] at hklen
    rw [resample22To24_getD samples k hnat] at hk
    obtain ⟨h1, h2⟩ := interpAt_bounds samples lo hi hb _ (pos22_nonneg k)
      (pos22_lt samples k hnat)
    exact hk ▸ ⟨le_jsRound h1, jsRound_le h2⟩
  exact ⟨main lo hi hb, main _ _ hrange⟩

theorem claim_C10_witness :
    ((∀ x ∈ ([0, 100, 200, 300] : List ℤ), 0 ≤ x ∧ x ≤ 300)
      ∧ (∀ x ∈ ([0, 100, 200, 300] : List ℤ), -32768 ≤ x ∧ x ≤ 32767))
    ∧ ((∀ y ∈ resample22To24 [0, 100, 200, 300], 0 ≤ y ∧ y ≤ 300)
      ∧ ∀ y ∈ resample22To24 [0, 100, 200, 300], -32768 ≤ y ∧ y ≤ 32767) :=
  ⟨⟨by decide, by decide⟩,
   claim_C10 [0, 100, 200, 300] 0 300 (by decide) (by decide)⟩

end LiveAvatar
